import Mathlib

/-!
Shallow embedding of `kaiko/kaiko.py` (the Kaiko API wrapper), covering the
request-parameter machinery of `KaikoData` and its product subclasses, the URL
template resolution performed by `KaikoData._form_url` via Python `str.format`,
and the order-book price-level synthesis `add_price_levels`.

Python dictionaries are modelled as insertion-ordered association lists with
unique keys (`Dict`); a one-row data frame is a `Dict Rat` from column name to
the value in that row.  Machine floats only ever hold small decimal fractions
here, so they are modelled exactly by `Rat`.  String primitives (`split`,
`join`, `startswith`) are re-implemented over character lists by structural
recursion so that every definition evaluates inside the kernel.
-/

set_option autoImplicit false
set_option maxRecDepth 16384

namespace Kaiko

/-- Association-list model of a Python `dict`: insertion-ordered, with unique
keys whenever it is built by the operations below. -/
abbrev Dict (α : Type) := List (String × α)

/-- Python `d[key]` lookup (first matching key). -/
def dlookup {α : Type} : Dict α → String → Option α
  | [], _ => none
  | (k, v) :: rest, key => if k = key then some v else dlookup rest key

/-- Python `d[key] = v`: overwrite the value in place when the key exists,
append the pair at the end otherwise. -/
def dset {α : Type} : Dict α → String → α → Dict α
  | [], key, v => [(key, v)]
  | (k, w) :: rest, key, v =>
      if k = key then (k, v) :: rest else (k, w) :: dset rest key v

/-- Python `list(d.keys())`. -/
def dkeys {α : Type} (d : Dict α) : List String := d.map Prod.fst

/-- Python `dict(**a, **b)`: the union of two dicts, a `TypeError` (`none`)
when the key sets overlap. -/
def dunion {α : Type} (a b : Dict α) : Option (Dict α) :=
  if (dkeys a).all (fun k => !((dkeys b).contains k)) then some (a ++ b) else none

/-! ### Python string primitives -/

/-- Worker for `pySplit`: splits on the (non-empty) separator `sep`, fuelled by
the length of the remaining input so that recursion is structural. -/
def pySplitAux (sep : List Char) : Nat → List Char → List Char → List (List Char)
  | _, [], acc => [acc.reverse]
  | 0, l, acc => [acc.reverse ++ l]
  | fuel + 1, c :: rest, acc =>
      if sep.isPrefixOf (c :: rest) then
        acc.reverse :: pySplitAux sep fuel (List.drop (sep.length - 1) rest) []
      else pySplitAux sep fuel rest (c :: acc)

/-- Python `s.split(sep)` for a non-empty separator: non-overlapping matches,
left to right, keeping empty fragments. -/
def pySplit (s sep : String) : List String :=
  (pySplitAux sep.data s.data.length s.data []).map String.mk

/-- Python `sep.join(parts)` for the separators used here. -/
def pyJoin (sep : String) : List String → String
  | [] => ""
  | [s] => s
  | s :: rest => s ++ sep ++ pyJoin sep rest

/-- Python `s.startswith(pre)`. -/
def pyStartsWith (s pre : String) : Bool :=
  pre.data.isPrefixOf s.data

/-- Python `l[-1]` on a non-empty list, with a default for the empty case. -/
def lastD {α : Type} (l : List α) (dflt : α) : α :=
  l.foldl (fun _ b => b) dflt

/-! ### Python `float()` on decimal strings

`add_price_levels` feeds `float` strings made of digits and dots, so the
embedding covers exactly the plain decimal fragment of Python `float`:
an optional sign, then digits with at most one dot and at least one digit.
Strings outside this fragment (for instance with two dots, as produced by a
level suffix that starts with an underscore) raise `ValueError`, i.e. `none`. -/

/-- All characters of the string are decimal digits. -/
def allDigits (s : String) : Bool := s.data.all Char.isDigit

/-- Numeric value of a digit string. -/
def natOfDigits (s : String) : Nat :=
  s.data.foldl (fun n c => 10 * n + (c.toNat - 48)) 0

/-- Python `float()` on an unsigned decimal string: `"2"`, `"0.5"`, `".2"`,
`"2."` parse; `""`, `"."`, `".0.5"` raise `ValueError` (`none`). -/
def pyFloatUnsigned (s : String) : Option Rat :=
  match pySplit s "." with
  | [ip] =>
      if ip.length ≠ 0 ∧ allDigits ip then some (natOfDigits ip) else none
  | [ip, fp] =>
      if (ip.length + fp.length ≠ 0) ∧ allDigits ip ∧ allDigits fp then
        some ((natOfDigits ip : Rat) + (natOfDigits fp : Rat) / (10 ^ fp.length : Nat))
      else none
  | _ => none

/-- Python `float()` with an optional leading sign. -/
def pyFloat (s : String) : Option Rat :=
  match s.data with
  | [] => none
  | c :: rest =>
      if c = '-' then (pyFloatUnsigned (String.mk rest)).map (fun x => -x)
      else if c = '+' then pyFloatUnsigned (String.mk rest)
      else pyFloatUnsigned s

/-! ### `add_price_levels` (kaiko.py lines 284-303)

The data frame is one order-book record: a `Dict Rat` from column name to
value.  The Python code loops over the sides `bid`, `ask`; for each side it
collects the columns whose name starts with `{side}_volume`, derives the level
from the part of the label after `volume` by replacing underscores with dots,
and adds a `{side}_price{suffix}` column worth `mid_price * (1 + eps * lvl)`. -/

/-- Level label of a volume column: Python `lab.split('volume')[-1]`. -/
def lvl_lab_of (lab : String) : String :=
  lastD (pySplit lab "volume") ""

/-- Level fraction of a level label: Python
`float('.'.join(lvl_lab.split('_'))) / 100`, `none` on `ValueError`. -/
def lvl_of (lvl_lab : String) : Option Rat :=
  (pyFloat (pyJoin "." (pySplit lvl_lab "_"))).map (fun x => x / 100)

/-- Order-book side sign: Python `-1 * (side == 'bid') + 1 * (side == 'ask')`. -/
def eps_of (side : String) : Rat :=
  (if side = "bid" then -1 else 0) + (if side = "ask" then 1 else 0)

/-- Derived price for one side at one level fraction:
`df["mid_price"] * (1 + eps * lvl)`. -/
def price_level (side : String) (mid lvl : Rat) : Rat :=
  mid * (1 + eps_of side * lvl)

/-- Body of the inner loop of `add_price_levels` for one volume column `lab`:
parse the level, look up `mid_price`, and add the new price column.  A failed
`float` conversion is a `ValueError`, a missing `mid_price` a `KeyError`. -/
def add_price_level_col (side : String) (df : Dict Rat) (lab : String) :
    Except String (Dict Rat) :=
  let lvl_lab := lvl_lab_of lab
  match lvl_of lvl_lab with
  | none => Except.error "ValueError: could not convert string to float"
  | some lvl =>
      match dlookup df "mid_price" with
      | none => Except.error "KeyError: mid_price"
      | some mid =>
          Except.ok (dset df (side ++ "_price" ++ lvl_lab) (price_level side mid lvl))

/-- One iteration of the outer loop of `add_price_levels`: the volume labels of
`side` are collected from the current columns, then processed in order. -/
def add_side (side : String) (df : Dict Rat) : Except String (Dict Rat) :=
  ((dkeys df).filter (fun l => pyStartsWith l (side ++ "_volume"))).foldlM
    (add_price_level_col side) df

/-- `add_price_levels` (kaiko.py 284-303): for `side` in `['bid', 'ask']`, add
the price columns derived from each `{side}_volume...` column. -/
def add_price_levels (df : Dict Rat) : Except String (Dict Rat) := do
  add_side "ask" (← add_side "bid" df)


/-! ### URL templates and `str.format` (kaiko.py lines 14-32 and 169-170)

`KaikoData._form_url` resolves the endpoint template with Python
`self.endpoint.format(**self.req_params)`.  A format string is parsed into
literal characters and `\x7bname\x7d` holes; rendering substitutes each hole with
the dict value for its name, raising `KeyError` when the name is not a key of
the dict.  A value that is present but empty is substituted like any other. -/

/-- Opening brace character. -/
def lbrace : Char := Char.ofNat 123

/-- Closing brace character. -/
def rbrace : Char := Char.ofNat 125

/-- One piece of a parsed format string: a literal character or a named hole. -/
inductive TPart where
  | litc : Char → TPart
  | hole : String → TPart
deriving DecidableEq

/-- Parser state for Python format strings: scanning literal text, having just
seen a single opening or closing brace, or reading a hole name. -/
inductive FmtState where
  | normal
  | sawL
  | sawR
  | inHole : String → FmtState

/-- Parser for Python format strings, one character per step.  Doubled braces
are literals, a single stray closing brace or an unterminated hole is a
`ValueError` (`none`). -/
def parseAux : FmtState → List Char → Option (List TPart)
  | FmtState.normal, [] => some []
  | FmtState.normal, c :: rest =>
      if c = lbrace then parseAux FmtState.sawL rest
      else if c = rbrace then parseAux FmtState.sawR rest
      else (parseAux FmtState.normal rest).map (fun ps => TPart.litc c :: ps)
  | FmtState.sawL, [] => none
  | FmtState.sawL, c :: rest =>
      if c = lbrace then (parseAux FmtState.normal rest).map (fun ps => TPart.litc lbrace :: ps)
      else if c = rbrace then (parseAux FmtState.normal rest).map (fun ps => TPart.hole "" :: ps)
      else parseAux (FmtState.inHole (String.singleton c)) rest
  | FmtState.sawR, [] => none
  | FmtState.sawR, c :: rest =>
      if c = rbrace then (parseAux FmtState.normal rest).map (fun ps => TPart.litc rbrace :: ps)
      else none
  | FmtState.inHole _, [] => none
  | FmtState.inHole acc, c :: rest =>
      if c = rbrace then (parseAux FmtState.normal rest).map (fun ps => TPart.hole acc :: ps)
      else parseAux (FmtState.inHole (acc.push c)) rest

/-- Renders parsed format parts against a dict, `KeyError` on a missing name. -/
def renderParts (m : Dict String) : List TPart → Except String String
  | [] => Except.ok ""
  | TPart.litc c :: rest => (renderParts m rest).map (fun s => String.singleton c ++ s)
  | TPart.hole n :: rest =>
      match dlookup m n with
      | none => Except.error ("KeyError: " ++ n)
      | some v => (renderParts m rest).map (fun s => v ++ s)

/-- Python `t.format(**m)`. -/
def pyFormat (t : String) (m : Dict String) : Except String String :=
  match parseAux FmtState.normal t.data with
  | none => Except.error "ValueError: bad format string"
  | some ps => renderParts m ps

/-- `KaikoData._form_url` (kaiko.py 169-170): `self.endpoint.format(**self.req_params)`. -/
def form_url (endpoint : String) (req_params : Dict String) : Except String String :=
  pyFormat endpoint req_params

/-- The string contains no brace, hence no unresolved placeholder. -/
def noBraces (s : String) : Prop :=
  lbrace ∉ s.data ∧ rbrace ∉ s.data

instance (s : String) : Decidable (noBraces s) := by
  unfold noBraces
  infer_instance

/-- Base URL of the default (`us`) client. -/
def _BASE_URL_KAIKO_US : String := "https://us.market-api.kaiko.io/"

/-- Trades endpoint template (kaiko.py 23-24). -/
def _URL_HISTORICAL_TRADES : String :=
  "v1/data/{commodity}.{data_version}/exchanges/{exchange}/{instrument_class}/{instrument}/trades"

/-- Order-book snapshots endpoint template (kaiko.py 25-26). -/
def _URL_ORDER_BOOK_FULL : String :=
  "v1/data/{commodity}.{data_version}/exchanges/{exchange}/{instrument_class}/{instrument}/snapshots/full"

/-- Order-book aggregations endpoint template (kaiko.py 27-28). -/
def _URL_ORDER_BOOK_AGGREGATIONS_FULL : String :=
  "v1/data/{commodity}.{data_version}/exchanges/{exchange}/{instrument_class}/{instrument}/ob_aggregations/full"

/-- Candles endpoint template (kaiko.py 29-30). -/
def _URL_CANDLES : String :=
  "v1/data/{commodity}.{data_version}/exchanges/{exchange}/{instrument_class}/{instrument}/aggregations/count_ohlcv_vwap"

/-! ### `KaikoData` and the product subclasses (kaiko.py 137-199, 222-377)

All parameter values are modelled as strings (their wire form).  The timestamp
conversion `ut.convert_timestamp_to_apiformat` lives in `kaiko/utils.py`, which
is not among the sources; following the spec it converts a user time expression
to the provider wire format, and it is threaded through the model as an
arbitrary function parameter `conv`, so every theorem below holds for each
possible conversion. -/

/-- Required-parameter dict built by every product constructor
(kaiko.py 229-234 etc.): `dict(commodity=..., data_version='latest',
exchange=..., instrument_class=..., instrument=...)`. -/
def mk_req_params (commodity exchange instrument_class instrument : String) : Dict String :=
  [("commodity", commodity), ("data_version", "latest"), ("exchange", exchange),
   ("instrument_class", instrument_class), ("instrument", instrument)]

/-- Static data of one product class: endpoint template, commodity of the
required parameters, optional-parameter whitelist, and the class-level default
of the `params` constructor argument. -/
structure ProductDescriptor where
  endpoint : String
  commodity : String
  parameter_space : List String
  default_params : Dict String
deriving DecidableEq

/-- `TickTrades` (kaiko.py 222-242). -/
def tickTradesDesc : ProductDescriptor :=
  { endpoint := _URL_HISTORICAL_TRADES, commodity := "trades",
    parameter_space := pySplit "start_time,end_time,page_size,continuation_token" ",",
    default_params := [("page_size", "100000")] }

/-- `Candles` (kaiko.py 252-274). -/
def candlesDesc : ProductDescriptor :=
  { endpoint := _URL_CANDLES, commodity := "trades",
    parameter_space := pySplit "interval,start_time,end_time,page_size,continuation_token,sort" ",",
    default_params := [("page_size", "100000")] }

/-- `OrderBookSnapshots` (kaiko.py 306-333). -/
def orderBookSnapshotsDesc : ProductDescriptor :=
  { endpoint := _URL_ORDER_BOOK_FULL, commodity := "order_book_snapshots",
    parameter_space :=
      pySplit "start_time,end_time,page_size,continuation_token,slippage,slippage_ref,orders,limit_orders" ",",
    default_params := [("page_size", "100")] }

/-- `OrderBookAggregations` (kaiko.py 344-369). -/
def orderBookAggregationsDesc : ProductDescriptor :=
  { endpoint := _URL_ORDER_BOOK_AGGREGATIONS_FULL, commodity := "order_book_snapshots",
    parameter_space :=
      pySplit "start_time,end_time,page_size,continuation_token,slippage,slippage_ref,interval" ",",
    default_params := [("page_size", "100")] }

/-- The four data products. -/
def allProducts : List ProductDescriptor :=
  [tickTradesDesc, candlesDesc, orderBookSnapshotsDesc, orderBookAggregationsDesc]

/-- `KaikoData._add_to_params` (kaiko.py 191-194): keyword arguments whose name
is in `self.parameter_space` are written into `self._params`; the rest are
dropped silently. -/
def _add_to_params (parameter_space : List String) (_params : Dict String)
    (kwargs : Dict String) : Dict String :=
  kwargs.foldl (fun acc kv => if kv.1 ∈ parameter_space then dset acc kv.1 kv.2 else acc) _params

/-- `KaikoData._add_to_req_params` (kaiko.py 196-199): keyword arguments whose
name is an existing key of `self.req_params` overwrite that entry. -/
def _add_to_req_params (req_params : Dict String) (kwargs : Dict String) : Dict String :=
  kwargs.foldl (fun acc kv => if kv.1 ∈ dkeys acc then dset acc kv.1 kv.2 else acc) req_params

/-- `KaikoData._format_param_timestamps` for one key: `if key in params:
params[key] = ut.convert_timestamp_to_apiformat(params[key])`. -/
def format_one (conv : String → String) (params : Dict String) (key : String) : Dict String :=
  match dlookup params key with
  | some v => dset params key (conv v)
  | none => params

/-- `KaikoData._format_param_timestamps` (kaiko.py 172-177): rewrites the
`start_time` and `end_time` entries in place through the timestamp conversion
and returns the same dict. -/
def _format_param_timestamps (conv : String → String) (params : Dict String) : Dict String :=
  format_one conv (format_one conv params "start_time") "end_time"

/-- Mutable state of one `KaikoData` instance after construction. -/
structure DataState where
  endpoint : String
  _params : Dict String
  req_params : Dict String
  parameter_space : List String
  url : String
deriving DecidableEq

/-- `KaikoData.__init__` (kaiko.py 152-167): store the parameter dicts, resolve
the URL once, fold the keyword arguments into the optional and required dicts,
and resolve the URL again.  A `KeyError` escaping `str.format` aborts the
construction. -/
def kaikoData_init (endpoint : String) (req_params : Dict String) (params : Dict String)
    (parameter_space : List String) (kwargs : Dict String) : Except String DataState := do
  let _ ← form_url (_BASE_URL_KAIKO_US ++ endpoint) req_params
  let r2 := _add_to_req_params req_params kwargs
  let url ← form_url (_BASE_URL_KAIKO_US ++ endpoint) r2
  Except.ok { endpoint := _BASE_URL_KAIKO_US ++ endpoint,
              _params := _add_to_params parameter_space params kwargs,
              req_params := r2,
              parameter_space := parameter_space, url := url }

/-- Constructor of a product class (kaiko.py 227-242 etc.), with the mutable
class-level default of the `params` argument threaded explicitly: when the
caller omits `params` (`paramsArg = none`), the instance aliases the class
default dict, so the mutations `_add_to_params` makes during `__init__` are
visible in the returned new class default. -/
def product_init (desc : ProductDescriptor) (class_default : Dict String)
    (exchange instrument instrument_class : String)
    (paramsArg : Option (Dict String)) (kwargs : Dict String) :
    Except String DataState × Dict String :=
  let req_params := mk_req_params desc.commodity exchange instrument_class instrument
  let p0 := paramsArg.getD class_default
  let st := kaikoData_init desc.endpoint req_params p0 desc.parameter_space kwargs
  match paramsArg, st with
  | some _, _ => (st, class_default)
  | none, Except.ok s => (st, s._params)
  | none, Except.error _ => (st, class_default)

/-- `TickTrades.__init__` (kaiko.py 227-242). -/
def tickTrades_init (class_default : Dict String) (exchange instrument instrument_class : String)
    (paramsArg : Option (Dict String)) (kwargs : Dict String) :
    Except String DataState × Dict String :=
  product_init tickTradesDesc class_default exchange instrument instrument_class paramsArg kwargs

/-- `Candles.__init__` (kaiko.py 256-274). -/
def candles_init (class_default : Dict String) (exchange instrument instrument_class : String)
    (paramsArg : Option (Dict String)) (kwargs : Dict String) :
    Except String DataState × Dict String :=
  product_init candlesDesc class_default exchange instrument instrument_class paramsArg kwargs

/-- `OrderBookSnapshots.__init__` (kaiko.py 310-328). -/
def orderBookSnapshots_init (class_default : Dict String)
    (exchange instrument instrument_class : String)
    (paramsArg : Option (Dict String)) (kwargs : Dict String) :
    Except String DataState × Dict String :=
  product_init orderBookSnapshotsDesc class_default exchange instrument instrument_class
    paramsArg kwargs

/-- `OrderBookAggregations.__init__` (kaiko.py 348-365). -/
def orderBookAggregations_init (class_default : Dict String)
    (exchange instrument instrument_class : String)
    (paramsArg : Option (Dict String)) (kwargs : Dict String) :
    Except String DataState × Dict String :=
  product_init orderBookAggregationsDesc class_default exchange instrument instrument_class
    paramsArg kwargs

/-- The `params` property getter (kaiko.py 183-185): returns
`self._format_param_timestamps(self._params)`, which also mutates the stored
dict in place; the new instance state is returned alongside the result. -/
def params_read (conv : String → String) (s : DataState) : Dict String × DataState :=
  let p := _format_param_timestamps conv s._params
  (p, { s with _params := p })

/-- The `query` property (kaiko.py 179-181): `dict(**self.params,
**self.req_params)`; reading `self.params` reformats (and mutates) the stored
optional parameters first. -/
def query_read (conv : String → String) (s : DataState) :
    Option (Dict String) × DataState :=
  let pr := params_read conv s
  (dunion pr.1 pr.2.req_params, pr.2)

/-- Optional-parameter dict of a successfully constructed instance. -/
def okParams (r : Except String DataState) : Dict String :=
  match r with
  | Except.ok s => s._params
  | Except.error _ => []

/-- Required-parameter dict of a successfully constructed instance. -/
def okReq (r : Except String DataState) : Dict String :=
  match r with
  | Except.ok s => s.req_params
  | Except.error _ => []

/-- Full endpoint URL of a product under the default client:
`self.client.base_url + endpoint` (kaiko.py 154). -/
def fullEndpoint (desc : ProductDescriptor) : String :=
  _BASE_URL_KAIKO_US ++ desc.endpoint

/-- Parsed format parts of a product endpoint (empty on a parse failure, which
does not occur for the four products). -/
def endpointParts (desc : ProductDescriptor) : List TPart :=
  (parseAux FmtState.normal (fullEndpoint desc).data).getD []

instance {α β : Type} [DecidableEq α] [DecidableEq β] : DecidableEq (Except α β) := fun x y =>
  match x, y with
  | Except.ok a, Except.ok b =>
      if h : a = b then Decidable.isTrue (by rw [h])
      else Decidable.isFalse (by intro hc; cases hc; exact h rfl)
  | Except.ok _, Except.error _ => Decidable.isFalse (by intro hc; cases hc)
  | Except.error _, Except.ok _ => Decidable.isFalse (by intro hc; cases hc)
  | Except.error a, Except.error b =>
      if h : a = b then Decidable.isTrue (by rw [h])
      else Decidable.isFalse (by intro hc; cases hc; exact h rfl)

/-- Placeholder instance state, for reading a construction result that is
known to be successful. -/
def emptyState : DataState :=
  { endpoint := "", _params := [], req_params := [], parameter_space := [], url := "" }

/-- State of a successfully constructed instance. -/
def okState (r : Except String DataState) : DataState :=
  match r with
  | Except.ok s => s
  | Except.error _ => emptyState

/-- Names of the placeholders of a parsed format string. -/
def holeNames (ps : List TPart) : List String :=
  ps.filterMap (fun part =>
    match part with
    | TPart.hole n => some n
    | TPart.litc _ => none)

/-- Literal characters of a parsed format string. -/
def litChars (ps : List TPart) : List Char :=
  ps.filterMap (fun part =>
    match part with
    | TPart.hole _ => none
    | TPart.litc c => some c)

/-! ### Dictionary lemmas -/

theorem dlookup_dset {α : Type} (d : Dict α) (key k : String) (v : α) :
    dlookup (dset d key v) k = if key = k then some v else dlookup d k := by
  induction d with
  | nil =>
      by_cases h : key = k <;> simp [dset, dlookup, h]
  | cons kv rest ih =>
      obtain ⟨k0, v0⟩ := kv
      by_cases h0 : k0 = key
      · subst h0
        by_cases h : k0 = k <;> simp [dset, dlookup, h]
      · by_cases h : k0 = k
        · subst h
          simp [dset, dlookup, h0, Ne.symm h0]
        · simp [dset, dlookup, h0, h, ih]

theorem mem_dkeys_dset {α : Type} (d : Dict α) (key k : String) (v : α) :
    k ∈ dkeys (dset d key v) ↔ k ∈ dkeys d ∨ k = key := by
  induction d with
  | nil => simp [dset, dkeys, eq_comm]
  | cons kv rest ih =>
      obtain ⟨k0, v0⟩ := kv
      by_cases h0 : k0 = key
      · subst h0
        simp [dset, dkeys]
        tauto
      · simp [dset, dkeys, h0] at ih ⊢
        tauto

theorem dkeys_dset_of_mem {α : Type} (d : Dict α) (key : String) (v : α)
    (h : key ∈ dkeys d) : dkeys (dset d key v) = dkeys d := by
  induction d with
  | nil => simp [dkeys] at h
  | cons kv rest ih =>
      obtain ⟨k0, v0⟩ := kv
      by_cases h0 : k0 = key
      · subst h0
        simp [dset, dkeys]
      · simp only [dkeys, List.map_cons, List.mem_cons] at h
        rcases h with h | h
        · exact absurd h.symm h0
        · simp only [dset, h0, if_neg, not_false_iff, dkeys, List.map_cons,
            List.cons.injEq, true_and]
          exact ih h

theorem dlookup_isSome_iff_mem {α : Type} (d : Dict α) (k : String) :
    (dlookup d k).isSome ↔ k ∈ dkeys d := by
  induction d with
  | nil => simp [dlookup, dkeys]
  | cons kv rest ih =>
      obtain ⟨k0, v0⟩ := kv
      by_cases h0 : k0 = k
      · simp [dlookup, dkeys, h0]
      · simp only [dlookup, h0, if_neg, not_false_iff, dkeys, List.map_cons,
          List.mem_cons, ih]
        constructor
        · exact Or.inr
        · rintro (h | h)
          · exact absurd h.symm h0
          · exact h

theorem dlookup_eq_none_iff_not_mem {α : Type} (d : Dict α) (k : String) :
    dlookup d k = none ↔ k ∉ dkeys d := by
  rw [← dlookup_isSome_iff_mem, Option.not_isSome_iff_eq_none]

theorem dlookup_append {α : Type} (a b : Dict α) (k : String) :
    dlookup (a ++ b) k = ((dlookup a k).or (dlookup b k)) := by
  induction a with
  | nil => simp [dlookup]
  | cons kv rest ih =>
      obtain ⟨k0, v0⟩ := kv
      by_cases h0 : k0 = k <;> simp [dlookup, h0, ih]

theorem dkeys_append {α : Type} (a b : Dict α) :
    dkeys (a ++ b) = dkeys a ++ dkeys b := by
  simp [dkeys]

/-! ### Lemmas on the parameter-merging helpers -/

theorem mem_dkeys_add_to_params (space : List String) (p kwargs : Dict String)
    (k : String) (h : k ∈ dkeys (_add_to_params space p kwargs)) :
    k ∈ dkeys p ∨ k ∈ space := by
  induction kwargs generalizing p with
  | nil => exact Or.inl h
  | cons kv rest ih =>
      simp only [_add_to_params, List.foldl_cons] at h
      by_cases hs : kv.1 ∈ space
      · simp only [hs, if_pos] at h
        rcases ih _ h with hm | hm
        · rcases (mem_dkeys_dset p kv.1 k kv.2).1 hm with hm2 | hm2
          · exact Or.inl hm2
          · exact Or.inr (hm2 ▸ hs)
        · exact Or.inr hm
      · simp only [hs, if_neg, not_false_iff] at h
        exact ih _ h
  
theorem mem_dkeys_add_to_params_of_mem (space : List String) (p kwargs : Dict String)
    (k : String) (h : k ∈ dkeys p) : k ∈ dkeys (_add_to_params space p kwargs) := by
  induction kwargs generalizing p with
  | nil => exact h
  | cons kv rest ih =>
      simp only [_add_to_params, List.foldl_cons]
      by_cases hs : kv.1 ∈ space
      · simp only [hs, if_pos]
        exact ih _ ((mem_dkeys_dset p kv.1 k kv.2).2 (Or.inl h))
      · simp only [hs, if_neg, not_false_iff]
        exact ih _ h

theorem dkeys_add_to_req_params (req kwargs : Dict String) :
    dkeys (_add_to_req_params req kwargs) = dkeys req := by
  induction kwargs generalizing req with
  | nil => rfl
  | cons kv rest ih =>
      simp only [_add_to_req_params, List.foldl_cons] at ih ⊢
      by_cases hs : kv.1 ∈ dkeys req
      · simp only [hs, if_pos]
        rw [ih, dkeys_dset_of_mem _ _ _ hs]
      · simp only [hs, if_neg, not_false_iff]
        exact ih req

/-! ### Lemmas on timestamp formatting -/

theorem dlookup_format_one (conv : String → String) (p : Dict String) (key k : String) :
    dlookup (format_one conv p key) k =
      if key = k then (dlookup p k).map conv else dlookup p k := by
  by_cases h : key = k
  · subst h
    cases hv : dlookup p key with
    | none => simp [format_one, hv]
    | some v => simp [format_one, hv, dlookup_dset]
  · cases hv : dlookup p key with
    | none => simp [format_one, hv, h]
    | some v => simp [format_one, hv, dlookup_dset, h]

theorem dkeys_format_one (conv : String → String) (p : Dict String) (key : String) :
    dkeys (format_one conv p key) = dkeys p := by
  cases hv : dlookup p key with
  | none => simp [format_one, hv]
  | some v =>
      have hm : key ∈ dkeys p := by
        rw [← dlookup_isSome_iff_mem, hv]
        rfl
      simp [format_one, hv, dkeys_dset_of_mem _ _ _ hm]

theorem dlookup_format_param_timestamps (conv : String → String) (p : Dict String)
    (k : String) :
    dlookup (_format_param_timestamps conv p) k =
      if k = "start_time" ∨ k = "end_time" then (dlookup p k).map conv
      else dlookup p k := by
  by_cases h1 : k = "start_time"
  · subst h1
    simp [_format_param_timestamps, dlookup_format_one]
  · by_cases h2 : k = "end_time"
    · subst h2
      simp [_format_param_timestamps, dlookup_format_one]
    · simp [_format_param_timestamps, dlookup_format_one, h1, h2, Ne.symm h1, Ne.symm h2]

theorem dkeys_format_param_timestamps (conv : String → String) (p : Dict String) :
    dkeys (_format_param_timestamps conv p) = dkeys p := by
  simp [_format_param_timestamps, dkeys_format_one]

/-! ### Lemmas on the format-string renderer -/

theorem dlookup_mem {α : Type} (d : Dict α) (k : String) (v : α)
    (h : dlookup d k = some v) : (k, v) ∈ d := by
  induction d with
  | nil => simp [dlookup] at h
  | cons kv rest ih =>
      obtain ⟨k0, v0⟩ := kv
      by_cases h0 : k0 = k
      · subst h0
        simp only [dlookup, if_pos] at h
        cases h
        exact List.mem_cons_self _ _
      · simp only [dlookup, h0, if_neg, not_false_iff] at h
        exact List.mem_cons_of_mem _ (ih h)

theorem noBraces_append (a b : String) (ha : noBraces a) (hb : noBraces b) :
    noBraces (a ++ b) := by
  unfold noBraces at *
  simp [String.data_append]
  tauto

theorem renderParts_ok_of (m : Dict String) (ps : List TPart)
    (h : ∀ n, TPart.hole n ∈ ps → n ∈ dkeys m) :
    ∃ s, renderParts m ps = Except.ok s := by
  induction ps with
  | nil => exact ⟨"", rfl⟩
  | cons part rest ih =>
      obtain ⟨s, hs⟩ := ih (fun n hn => h n (List.mem_cons_of_mem _ hn))
      cases part with
      | litc c => exact ⟨String.singleton c ++ s, by simp [renderParts, hs, Except.map]⟩
      | hole n =>
          have hm : n ∈ dkeys m := h n (List.mem_cons_self _ _)
          have hsome := (dlookup_isSome_iff_mem m n).2 hm
          obtain ⟨v, hv⟩ := Option.isSome_iff_exists.1 hsome
          exact ⟨v ++ s, by simp [renderParts, hv, hs, Except.map]⟩

theorem renderParts_error_of (m : Dict String) (ps : List TPart) (n : String)
    (hmem : TPart.hole n ∈ ps) (hnone : n ∉ dkeys m) :
    ∃ e, renderParts m ps = Except.error e := by
  induction ps with
  | nil => simp at hmem
  | cons part rest ih =>
      cases part with
      | litc c =>
          obtain ⟨e, he⟩ := ih (by simpa using hmem)
          exact ⟨e, by simp [renderParts, he, Except.map]⟩
      | hole n2 =>
          by_cases hn2 : n2 ∈ dkeys m
          · have hne : n2 ≠ n := fun h => hnone (h ▸ hn2)
            have hmem2 : TPart.hole n ∈ rest := by
              rcases List.mem_cons.1 hmem with h | h
              · cases h
                exact absurd rfl hne
              · exact h
            obtain ⟨e, he⟩ := ih hmem2
            have hsome := (dlookup_isSome_iff_mem m n2).2 hn2
            obtain ⟨v, hv⟩ := Option.isSome_iff_exists.1 hsome
            exact ⟨e, by simp [renderParts, hv, he, Except.map]⟩
          · have hnone2 : dlookup m n2 = none :=
              (dlookup_eq_none_iff_not_mem m n2).2 hn2
            exact ⟨"KeyError: " ++ n2, by simp [renderParts, hnone2]⟩

theorem renderParts_noBraces (m : Dict String) (ps : List TPart)
    (hlit : ∀ c, TPart.litc c ∈ ps → c ≠ lbrace ∧ c ≠ rbrace)
    (hvals : ∀ kv ∈ m, noBraces kv.2)
    (s : String) (hren : renderParts m ps = Except.ok s) :
    noBraces s := by
  induction ps generalizing s with
  | nil =>
      simp only [renderParts] at hren
      cases hren
      exact ⟨by simp, by simp⟩
  | cons part rest ih =>
      cases part with
      | litc c =>
          simp only [renderParts] at hren
          cases hrest : renderParts m rest with
          | error e => rw [hrest] at hren; simp [Except.map] at hren
          | ok s2 =>
              rw [hrest] at hren
              simp only [Except.map, Except.ok.injEq] at hren
              subst hren
              have hc := hlit c (List.mem_cons_self _ _)
              refine noBraces_append _ _ ⟨?_, ?_⟩
                (ih (fun c2 hc2 => hlit c2 (List.mem_cons_of_mem _ hc2)) s2 hrest)
              · simp [String.singleton]
                exact fun h => hc.1 h.symm
              · simp [String.singleton]
                exact fun h => hc.2 h.symm
      | hole n =>
          simp only [renderParts] at hren
          cases hv : dlookup m n with
          | none => rw [hv] at hren; simp at hren
          | some v =>
              rw [hv] at hren
              cases hrest : renderParts m rest with
              | error e => rw [hrest] at hren; simp [Except.map] at hren
              | ok s2 =>
                  rw [hrest] at hren
                  simp only [Except.map, Except.ok.injEq] at hren
                  subst hren
                  exact noBraces_append _ _ (hvals (n, v) (dlookup_mem m n v hv))
                    (ih (fun c2 hc2 => hlit c2 (List.mem_cons_of_mem _ hc2)) s2 hrest)

theorem hole_mem_iff (ps : List TPart) (n : String) :
    TPart.hole n ∈ ps ↔ n ∈ holeNames ps := by
  induction ps with
  | nil => simp [holeNames]
  | cons part rest ih =>
      cases part with
      | litc c => simp [holeNames, List.filterMap_cons, ih]
      | hole n2 => simp [holeNames, List.filterMap_cons, ih]

theorem lit_mem_iff (ps : List TPart) (c : Char) :
    TPart.litc c ∈ ps ↔ c ∈ litChars ps := by
  induction ps with
  | nil => simp [litChars]
  | cons part rest ih =>
      cases part with
      | litc c2 => simp [litChars, List.filterMap_cons, ih]
      | hole n => simp [litChars, List.filterMap_cons, ih]

theorem parse_endpoint_eq (desc : ProductDescriptor) (h : desc ∈ allProducts) :
    parseAux FmtState.normal (fullEndpoint desc).data = some (endpointParts desc) := by
  simp only [allProducts, List.mem_cons, List.not_mem_nil, or_false] at h
  rcases h with h | h | h | h <;> subst h <;> rfl

theorem endpoint_holeNames (desc : ProductDescriptor) (h : desc ∈ allProducts) :
    holeNames (endpointParts desc) =
      ["commodity", "data_version", "exchange", "instrument_class", "instrument"] := by
  simp only [allProducts, List.mem_cons, List.not_mem_nil, or_false] at h
  rcases h with h | h | h | h <;> subst h <;> rfl

theorem endpoint_lits (desc : ProductDescriptor) (h : desc ∈ allProducts) :
    ∀ c ∈ litChars (endpointParts desc), c ≠ lbrace ∧ c ≠ rbrace := by
  simp only [allProducts, List.mem_cons, List.not_mem_nil, or_false] at h
  rcases h with h | h | h | h <;> subst h <;> decide

/-! ### Lemmas on `add_price_levels` -/

theorem pyStartsWith_exists (lab pre : String) (h : pyStartsWith lab pre = true) :
    ∃ t, lab.data = pre.data ++ t := by
  unfold pyStartsWith at h
  obtain ⟨t, ht⟩ := List.isPrefixOf_iff_prefix.1 h
  exact ⟨t, ht.symm⟩

theorem data_bid_volume : ("bid_volume").data = ['b', 'i', 'd', '_', 'v', 'o', 'l', 'u', 'm', 'e'] := rfl

theorem data_ask_volume : ("ask_volume").data = ['a', 's', 'k', '_', 'v', 'o', 'l', 'u', 'm', 'e'] := rfl

theorem data_mid_price : ("mid_price").data = ['m', 'i', 'd', '_', 'p', 'r', 'i', 'c', 'e'] := rfl

theorem data_bid_price : ("bid_price").data = ['b', 'i', 'd', '_', 'p', 'r', 'i', 'c', 'e'] := rfl

theorem data_ask_price : ("ask_price").data = ['a', 's', 'k', '_', 'p', 'r', 'i', 'c', 'e'] := rfl

theorem add_price_levels_bid_col (lab : String) (mid vol lvl : Rat)
    (hpre : pyStartsWith lab "bid_volume" = true)
    (hparse : lvl_of (lvl_lab_of lab) = some lvl) :
    add_price_levels [("mid_price", mid), (lab, vol)] =
      Except.ok [("mid_price", mid), (lab, vol),
        ("bid" ++ "_price" ++ lvl_lab_of lab, price_level "bid" mid lvl)] := by
  obtain ⟨t, ht⟩ := pyStartsWith_exists lab _ hpre
  rw [data_bid_volume] at ht
  have h1 : ¬(lab = "mid_price") := by
    intro h
    rw [h, data_mid_price] at ht
    simp at ht
  have h2 : pyStartsWith lab "ask_volume" = false := by
    unfold pyStartsWith
    rw [data_ask_volume, ht]
    simp +decide [List.isPrefixOf]
  have h3 : ¬("mid_price" = "bid_price" ++ lvl_lab_of lab) := by
    intro h
    have hd := congrArg String.data h
    rw [data_mid_price, String.data_append, data_bid_price] at hd
    simp at hd
  have h4 : ¬(lab = "bid_price" ++ lvl_lab_of lab) := by
    intro h
    have hd := congrArg String.data h
    rw [ht, String.data_append, data_bid_price] at hd
    simp at hd
  have h5 : pyStartsWith "mid_price" "bid_volume" = false := by decide
  have h6 : pyStartsWith "mid_price" "ask_volume" = false := by decide
  have h7 : pyStartsWith ("bid_price" ++ lvl_lab_of lab) "ask_volume" = false := by
    unfold pyStartsWith
    rw [data_ask_volume, String.data_append, data_bid_price]
    simp +decide [List.isPrefixOf]
  simp only [add_price_levels, add_side, dkeys, List.map_cons, List.map_nil,
    List.filter, hpre, h2, h5, h6, h7, List.foldlM, add_price_level_col, hparse,
    dlookup, dset, if_pos, if_neg, not_false_iff, h1, h3, h4, bind, Except.bind,
    pure, Except.pure, String.reduceEq, String.reduceAppend, reduceIte, List.cons_append, List.nil_append]

theorem add_price_levels_ask_col (lab : String) (mid vol lvl : Rat)
    (hpre : pyStartsWith lab "ask_volume" = true)
    (hparse : lvl_of (lvl_lab_of lab) = some lvl) :
    add_price_levels [("mid_price", mid), (lab, vol)] =
      Except.ok [("mid_price", mid), (lab, vol),
        ("ask" ++ "_price" ++ lvl_lab_of lab, price_level "ask" mid lvl)] := by
  obtain ⟨t, ht⟩ := pyStartsWith_exists lab _ hpre
  rw [data_ask_volume] at ht
  have h1 : ¬(lab = "mid_price") := by
    intro h
    rw [h, data_mid_price] at ht
    simp at ht
  have h2 : pyStartsWith lab "bid_volume" = false := by
    unfold pyStartsWith
    rw [data_bid_volume, ht]
    simp +decide [List.isPrefixOf]
  have h3 : ¬("mid_price" = "ask_price" ++ lvl_lab_of lab) := by
    intro h
    have hd := congrArg String.data h
    rw [data_mid_price, String.data_append, data_ask_price] at hd
    simp at hd
  have h4 : ¬(lab = "ask_price" ++ lvl_lab_of lab) := by
    intro h
    have hd := congrArg String.data h
    rw [ht, String.data_append, data_ask_price] at hd
    simp at hd
  have h5 : pyStartsWith "mid_price" "bid_volume" = false := by decide
  have h6 : pyStartsWith "mid_price" "ask_volume" = false := by decide
  simp only [add_price_levels, add_side, dkeys, List.map_cons, List.map_nil,
    List.filter, hpre, h2, h5, h6, List.foldlM, add_price_level_col, hparse,
    dlookup, dset, if_pos, if_neg, not_false_iff, h1, h3, h4, bind, Except.bind,
    pure, Except.pure, String.reduceEq, String.reduceAppend, reduceIte, List.cons_append, List.nil_append]

/-! ### Claim theorems -/

/-- C1 (counterexample): the claimed suffix-parsing rule fails on the code.
For the column `bid_volume_2` (suffix `_2`, which the claim says denotes
integer percent 2, so that `bid_price_2 = 98` at `mid_price = 100`), the code
joins `['', '2']` with dots into `.2`, parses 0.2 percent and produces
`bid_price_2 = 99.8`; for the column `ask_volume_0_5` (suffix `_0_5`, claimed
0.5 percent) the join produces `.0.5`, which `float` rejects, so the formatter
raises `ValueError` instead of adding any column. -/
theorem C1_price_synthesis_counterexample :
    (add_price_levels [("mid_price", 100), ("bid_volume_2", 1)] =
        Except.ok [("mid_price", 100), ("bid_volume_2", 1), ("bid_price_2", 499 / 5)] ∧
      (499 / 5 : Rat) ≠ 98) ∧
    add_price_levels [("mid_price", 100), ("ask_volume_0_5", 1)] =
      Except.error "ValueError: could not convert string to float" := by
  refine ⟨⟨?_, by norm_num⟩, by rfl⟩
  simp +decide [add_price_levels, add_side, add_price_level_col, lvl_lab_of, lvl_of,
    pyFloat, pyFloatUnsigned, pySplit, pySplitAux, pyJoin, pyStartsWith, lastD,
    allDigits, natOfDigits, eps_of, price_level, dlookup, dset, dkeys, String.length,
    List.foldlM, Except.bind, bind, pure, Except.pure, List.filter]
  norm_num

/-- C1 (amended): for every order-book column `{side}_volume{suffix}` with side
bid or ask, the formatter adds `{side}_price{suffix} = mid_price * (1 +
sign(side) * level / 100)` where the level is obtained by replacing the
underscores of the suffix with dots and parsing the result as a float — the
suffix `d` denotes integer percent `d` and `d_f` denotes decimal percent `d.f`
(the suffix carries no leading underscore); in particular, with `mid_price =
100`, the column `ask_volume0_5` yields `ask_price0_5 = 100.5` and the column
`bid_volume2` yields `bid_price2 = 98`. -/
theorem C1_price_synthesis :
    (∀ (lab : String) (mid vol lvl : Rat), pyStartsWith lab "bid_volume" = true →
        lvl_of (lvl_lab_of lab) = some lvl →
        add_price_levels [("mid_price", mid), (lab, vol)] =
          Except.ok [("mid_price", mid), (lab, vol),
            ("bid" ++ "_price" ++ lvl_lab_of lab, price_level "bid" mid lvl)]) ∧
    (∀ (lab : String) (mid vol lvl : Rat), pyStartsWith lab "ask_volume" = true →
        lvl_of (lvl_lab_of lab) = some lvl →
        add_price_levels [("mid_price", mid), (lab, vol)] =
          Except.ok [("mid_price", mid), (lab, vol),
            ("ask" ++ "_price" ++ lvl_lab_of lab, price_level "ask" mid lvl)]) ∧
    lvl_lab_of "ask_volume0_5" = "0_5" ∧
    lvl_lab_of "bid_volume2" = "2" ∧
    lvl_of "0_5" = some (1 / 200) ∧
    lvl_of "2" = some (2 / 100) ∧
    price_level "ask" 100 (1 / 200) = 201 / 2 ∧
    price_level "bid" 100 (2 / 100) = 98 := by
  refine ⟨add_price_levels_bid_col, add_price_levels_ask_col, by decide, by decide,
    ?_, ?_, ?_, ?_⟩
  · simp +decide [lvl_of, lvl_lab_of, pyFloat, pyFloatUnsigned, pySplit, pySplitAux,
      pyJoin, lastD, allDigits, natOfDigits, String.length]
    try norm_num
  · simp +decide [lvl_of, lvl_lab_of, pyFloat, pyFloatUnsigned, pySplit, pySplitAux,
      pyJoin, lastD, allDigits, natOfDigits, String.length]
    try norm_num
  · simp +decide [price_level, eps_of]
    try norm_num
  · simp +decide [price_level, eps_of]
    try norm_num

/-- C1 (witness): the amended statement applied to the concrete order-book
columns `ask_volume0_5` and `bid_volume2` at `mid_price = 100`. -/
theorem C1_price_synthesis_witness :
    add_price_levels [("mid_price", 100), ("ask_volume0_5", 1)] =
      Except.ok [("mid_price", 100), ("ask_volume0_5", 1),
        ("ask" ++ "_price" ++ lvl_lab_of "ask_volume0_5", price_level "ask" 100 (1 / 200))] ∧
    add_price_levels [("mid_price", 100), ("bid_volume2", 1)] =
      Except.ok [("mid_price", 100), ("bid_volume2", 1),
        ("bid" ++ "_price" ++ lvl_lab_of "bid_volume2", price_level "bid" 100 (2 / 100))] := by
  constructor
  · exact C1_price_synthesis.2.1 "ask_volume0_5" 100 1 (1 / 200) (by decide)
      (by simp +decide [lvl_of, lvl_lab_of, pyFloat, pyFloatUnsigned, pySplit,
            pySplitAux, pyJoin, lastD, allDigits, natOfDigits, String.length]
          try norm_num)
  · exact C1_price_synthesis.1 "bid_volume2" 100 1 (2 / 100) (by decide)
      (by simp +decide [lvl_of, lvl_lab_of, pyFloat, pyFloatUnsigned, pySplit,
            pySplitAux, pyJoin, lastD, allDigits, natOfDigits, String.length]
          try norm_num)

/-- C6: for every volume column whose level suffix parses to a positive level,
and every positive `mid_price`, the synthesized ask price lies strictly above
the mid price and the synthesized bid price strictly below it. -/
theorem C6_price_ordering :
    ∀ (lab : String) (mid vol lvl : Rat), lvl_of (lvl_lab_of lab) = some lvl →
      0 < lvl → 0 < mid →
      (pyStartsWith lab "ask_volume" = true →
        add_price_levels [("mid_price", mid), (lab, vol)] =
          Except.ok [("mid_price", mid), (lab, vol),
            ("ask" ++ "_price" ++ lvl_lab_of lab, price_level "ask" mid lvl)] ∧
          mid < price_level "ask" mid lvl) ∧
      (pyStartsWith lab "bid_volume" = true →
        add_price_levels [("mid_price", mid), (lab, vol)] =
          Except.ok [("mid_price", mid), (lab, vol),
            ("bid" ++ "_price" ++ lvl_lab_of lab, price_level "bid" mid lvl)] ∧
          price_level "bid" mid lvl < mid) := by
  intro lab mid vol lvl hparse hlvl hmid
  constructor
  · intro hpre
    refine ⟨add_price_levels_ask_col lab mid vol lvl hpre hparse, ?_⟩
    have heps : eps_of "ask" = 1 := by
      simp +decide [eps_of]
    rw [price_level, heps]
    nlinarith [mul_pos hmid hlvl]
  · intro hpre
    refine ⟨add_price_levels_bid_col lab mid vol lvl hpre hparse, ?_⟩
    have heps : eps_of "bid" = -1 := by
      simp +decide [eps_of]
    rw [price_level, heps]
    nlinarith [mul_pos hmid hlvl]

/-- C6 (witness): the ordering at the concrete column `ask_volume0_5` and
`bid_volume2` with `mid_price = 100`. -/
theorem C6_price_ordering_witness :
    (100 : Rat) < price_level "ask" 100 (1 / 200) ∧
    price_level "bid" 100 (2 / 100) < 100 := by
  constructor
  · exact ((C6_price_ordering "ask_volume0_5" 100 1 (1 / 200)
      (by simp +decide [lvl_of, lvl_lab_of, pyFloat, pyFloatUnsigned, pySplit,
            pySplitAux, pyJoin, lastD, allDigits, natOfDigits, String.length]
          try norm_num)
      (by norm_num) (by norm_num)).1 (by decide)).2
  · exact ((C6_price_ordering "bid_volume2" 100 1 (2 / 100)
      (by simp +decide [lvl_of, lvl_lab_of, pyFloat, pyFloatUnsigned, pySplit,
            pySplitAux, pyJoin, lastD, allDigits, natOfDigits, String.length]
          try norm_num)
      (by norm_num) (by norm_num)).2 (by decide)).2

/-! ### Lemmas on the constructors -/

theorem dunion_eq_some {α : Type} (a b d : Dict α) (h : dunion a b = some d) :
    d = a ++ b := by
  unfold dunion at h
  by_cases hc : (dkeys a).all (fun k => !((dkeys b).contains k))
  · rw [if_pos hc] at h
    cases h
    rfl
  · rw [if_neg hc] at h
    cases h

theorem kaikoData_init_ok (endpoint : String) (req params : Dict String)
    (space : List String) (kwargs : Dict String) (s : DataState)
    (h : kaikoData_init endpoint req params space kwargs = Except.ok s) :
    s._params = _add_to_params space params kwargs ∧
    s.req_params = _add_to_req_params req kwargs := by
  unfold kaikoData_init at h
  cases h1 : form_url (_BASE_URL_KAIKO_US ++ endpoint) req with
  | error e => rw [h1] at h; simp [bind, Except.bind] at h
  | ok u1 =>
      rw [h1] at h
      simp only [bind, Except.bind] at h
      cases h2 : form_url (_BASE_URL_KAIKO_US ++ endpoint) (_add_to_req_params req kwargs) with
      | error e => rw [h2] at h; simp at h
      | ok u2 =>
          rw [h2] at h
          simp only [Except.ok.injEq] at h
          rw [← h]
          exact ⟨rfl, rfl⟩

theorem product_init_fst (desc : ProductDescriptor) (dflt : Dict String)
    (exchange instrument instrument_class : String)
    (paramsArg : Option (Dict String)) (kwargs : Dict String) :
    (product_init desc dflt exchange instrument instrument_class paramsArg kwargs).1 =
      kaikoData_init desc.endpoint
        (mk_req_params desc.commodity exchange instrument_class instrument)
        (paramsArg.getD dflt) desc.parameter_space kwargs := by
  unfold product_init
  cases paramsArg with
  | some p => rfl
  | none =>
      cases h : kaikoData_init desc.endpoint
        (mk_req_params desc.commodity exchange instrument_class instrument)
        dflt desc.parameter_space kwargs <;> simp [h]

/-- C2 (counterexample): the claim says URL resolution fails whenever a
required value is still unset (empty string) at resolution time; in the code
`str.format` substitutes the empty string without error, so resolving the
trades URL with `exchange = ""` succeeds and yields a URL with an empty path
segment and no unresolved placeholder. -/
theorem C2_url_resolution_counterexample :
    dlookup (mk_req_params "trades" "" "spot" "btc-usd") "exchange" = some "" ∧
    form_url (fullEndpoint tickTradesDesc) (mk_req_params "trades" "" "spot" "btc-usd") =
      Except.ok
        "https://us.market-api.kaiko.io/v1/data/trades.latest/exchanges//spot/btc-usd/trades" :=
  ⟨rfl, rfl⟩

/-- C2 (amended): for every product, resolving the request URL fails with an
error (a `KeyError` from `str.format`) exactly when some placeholder of the URL
template lacks a corresponding key in the required-parameter mapping; a key
bound to the empty string (or any other value) does not cause an error, and
when every placeholder has a key the resolution yields a URL with no unresolved
placeholders (provided the bound values themselves contain no braces). -/
theorem C2_url_resolution (desc : ProductDescriptor) (hdesc : desc ∈ allProducts)
    (m : Dict String) :
    ((∀ n ∈ holeNames (endpointParts desc), n ∈ dkeys m) →
      ∃ s, form_url (fullEndpoint desc) m = Except.ok s ∧
        ((∀ kv ∈ m, noBraces kv.2) → noBraces s)) ∧
    ((∃ n ∈ holeNames (endpointParts desc), n ∉ dkeys m) →
      ∃ e, form_url (fullEndpoint desc) m = Except.error e) := by
  constructor
  · intro h
    obtain ⟨s, hs⟩ := renderParts_ok_of m (endpointParts desc)
      (fun n hn => h n ((hole_mem_iff _ n).1 hn))
    refine ⟨s, ?_, ?_⟩
    · unfold form_url pyFormat
      rw [parse_endpoint_eq desc hdesc]
      exact hs
    · intro hv
      exact renderParts_noBraces m (endpointParts desc)
        (fun c hc => endpoint_lits desc hdesc c ((lit_mem_iff _ c).1 hc)) hv s hs
  · rintro ⟨n, hn, hnm⟩
    obtain ⟨e, he⟩ := renderParts_error_of m (endpointParts desc) n
      ((hole_mem_iff _ n).2 hn) hnm
    refine ⟨e, ?_⟩
    unfold form_url pyFormat
    rw [parse_endpoint_eq desc hdesc]
    exact he

/-- C2 (witness): with all five required parameters bound the trades URL
resolves successfully; with only `commodity` bound the resolution errors. -/
theorem C2_url_resolution_witness :
    (∃ s, form_url (fullEndpoint tickTradesDesc)
        (mk_req_params "trades" "cbse" "spot" "btc-usd") = Except.ok s ∧
        ((∀ kv ∈ mk_req_params "trades" "cbse" "spot" "btc-usd", noBraces kv.2) →
          noBraces s)) ∧
    ∃ e, form_url (fullEndpoint tickTradesDesc) [("commodity", "trades")] =
      Except.error e :=
  ⟨(C2_url_resolution tickTradesDesc (by decide)
      (mk_req_params "trades" "cbse" "spot" "btc-usd")).1 (by decide),
   (C2_url_resolution tickTradesDesc (by decide) [("commodity", "trades")]).2 (by decide)⟩

/-- C3: the `params` constructor argument of every product class carries the
mutable default dict `dict(page_size=...)`, created once at class definition
time; keyword arguments are merged into it in place, so a construction that
passes `start_time` writes it into the shared default, and a later instance
constructed without an explicit `params` argument starts from the polluted
default instead of the declared one: constructing `TickTrades(..., start_time=
'2020-08-06')` and then `TickTrades(...)` leaves the second instance with
`start_time` set although the declared default holds only `page_size`. -/
theorem C3_shared_default_state :
    dlookup (okParams (tickTrades_init
        (tickTrades_init tickTradesDesc.default_params "cbse" "btc-usd" "spot" none
          [("start_time", "2020-08-06")]).2
        "cbse" "eth-usd" "spot" none []).1) "start_time" = some "2020-08-06" ∧
    dkeys (okParams (tickTrades_init
        (tickTrades_init tickTradesDesc.default_params "cbse" "btc-usd" "spot" none
          [("start_time", "2020-08-06")]).2
        "cbse" "eth-usd" "spot" none []).1) = ["page_size", "start_time"] ∧
    dkeys tickTradesDesc.default_params = ["page_size"] := by
  refine ⟨by decide, by decide, by decide⟩

/-- C9: the optional-parameter whitelists are exactly: Trades = \{start_time,
end_time, page_size, continuation_token\}; Candles adds interval and sort;
OrderBookSnapshots adds slippage, slippage_ref, orders, limit_orders;
OrderBookAggregations adds slippage, slippage_ref, interval. -/
theorem C9_parameter_spaces :
    tickTradesDesc.parameter_space =
      ["start_time", "end_time", "page_size", "continuation_token"] ∧
    (∀ k, k ∈ candlesDesc.parameter_space ↔
      (k ∈ tickTradesDesc.parameter_space ∨ k ∈ ["interval", "sort"])) ∧
    (∀ k, k ∈ orderBookSnapshotsDesc.parameter_space ↔
      (k ∈ tickTradesDesc.parameter_space ∨
        k ∈ ["slippage", "slippage_ref", "orders", "limit_orders"])) ∧
    (∀ k, k ∈ orderBookAggregationsDesc.parameter_space ↔
      (k ∈ tickTradesDesc.parameter_space ∨
        k ∈ ["slippage", "slippage_ref", "interval"])) := by
  have h1 : tickTradesDesc.parameter_space =
      ["start_time", "end_time", "page_size", "continuation_token"] := rfl
  have h2 : candlesDesc.parameter_space =
      ["interval", "start_time", "end_time", "page_size", "continuation_token", "sort"] := rfl
  have h3 : orderBookSnapshotsDesc.parameter_space =
      ["start_time", "end_time", "page_size", "continuation_token", "slippage",
       "slippage_ref", "orders", "limit_orders"] := rfl
  have h4 : orderBookAggregationsDesc.parameter_space =
      ["start_time", "end_time", "page_size", "continuation_token", "slippage",
       "slippage_ref", "interval"] := rfl
  refine ⟨h1, ?_, ?_, ?_⟩ <;> intro k <;>
    rw [h1] <;> first
      | rw [h2] | rw [h3] | rw [h4]
  all_goals
    simp only [List.mem_cons, List.not_mem_nil, or_false]
    tauto

/-- C4 (counterexample): the optional-parameter invariant fails through the
`params` constructor argument, which is stored without validation: passing
`params={'foo': 'bar'}` to `TickTrades` leaves `foo` in the optional mapping
although it is outside the product's allowed set. -/
theorem C4_invariant_counterexample :
    dlookup (okParams (tickTrades_init tickTradesDesc.default_params "cbse" "btc-usd" "spot"
      (some [("foo", "bar")]) []).1) "foo" = some "bar" ∧
    "foo" ∉ tickTradesDesc.parameter_space :=
  ⟨by decide, by decide⟩

/-- C4 (amended): for every product and construction whose `params` dictionary
argument has keys inside the product's allowed optional-name set (as the
declared default does), the optional-parameter mapping of the constructed
instance stays inside the allowed set — only whitelisted keyword arguments are
merged — and the required-parameter mapping always has exactly the declared
keys.  The whitelist filter applies only to keyword arguments, not to the
`params` dictionary argument itself. -/
theorem C4_invariant (desc : ProductDescriptor) (hdesc : desc ∈ allProducts)
    (dflt : Dict String) (exchange instrument instrument_class : String)
    (paramsArg : Option (Dict String)) (kwargs : Dict String) (s : DataState)
    (hp : ∀ k ∈ dkeys (paramsArg.getD dflt), k ∈ desc.parameter_space)
    (hok : (product_init desc dflt exchange instrument instrument_class paramsArg kwargs).1 =
      Except.ok s) :
    (∀ k ∈ dkeys s._params, k ∈ desc.parameter_space) ∧
    dkeys s.req_params =
      ["commodity", "data_version", "exchange", "instrument_class", "instrument"] := by
  rw [product_init_fst] at hok
  obtain ⟨hparams, hreq⟩ := kaikoData_init_ok _ _ _ _ _ _ hok
  constructor
  · intro k hk
    rw [hparams] at hk
    rcases mem_dkeys_add_to_params _ _ _ _ hk with h | h
    · exact hp k h
    · exact h
  · rw [hreq, dkeys_add_to_req_params]
    rfl

/-- C4 (witness): the amended invariant at a concrete `TickTrades` construction
with a whitelisted keyword argument. -/
theorem C4_invariant_witness :
    (∀ k ∈ dkeys (okState (product_init tickTradesDesc tickTradesDesc.default_params
        "cbse" "btc-usd" "spot" none [("start_time", "2020-08-06")]).1)._params,
      k ∈ tickTradesDesc.parameter_space) ∧
    dkeys (okState (product_init tickTradesDesc tickTradesDesc.default_params
        "cbse" "btc-usd" "spot" none [("start_time", "2020-08-06")]).1).req_params =
      ["commodity", "data_version", "exchange", "instrument_class", "instrument"] :=
  C4_invariant tickTradesDesc (by decide) tickTradesDesc.default_params "cbse" "btc-usd"
    "spot" none [("start_time", "2020-08-06")] _ (by decide) (by decide)

/-- C5: for every product, a keyword argument whose name is neither in the
product's optional whitelist nor among the required-parameter names (and does
not occur in the initial `params` dictionary) is discarded without error: the
name is absent from the resolved query of the constructed instance. -/
theorem C5_unknown_kwarg_dropped (desc : ProductDescriptor) (hdesc : desc ∈ allProducts)
    (dflt : Dict String) (exchange instrument instrument_class : String)
    (paramsArg : Option (Dict String)) (kwargs : Dict String) (name : String)
    (s : DataState) (conv : String → String) (q : Dict String)
    (hn1 : name ∉ desc.parameter_space)
    (hn2 : name ∉ ["commodity", "data_version", "exchange", "instrument_class", "instrument"])
    (hn3 : name ∉ dkeys (paramsArg.getD dflt))
    (hok : (product_init desc dflt exchange instrument instrument_class paramsArg kwargs).1 =
      Except.ok s)
    (hq : (query_read conv s).1 = some q) :
    name ∉ dkeys q := by
  rw [product_init_fst] at hok
  obtain ⟨hparams, hreq⟩ := kaikoData_init_ok _ _ _ _ _ _ hok
  have hq2 : q = _format_param_timestamps conv s._params ++ s.req_params :=
    dunion_eq_some _ _ _ hq
  intro hmem
  rw [hq2, dkeys_append] at hmem
  rcases List.mem_append.1 hmem with h | h
  · rw [dkeys_format_param_timestamps, hparams] at h
    rcases mem_dkeys_add_to_params _ _ _ _ h with h2 | h2
    · exact hn3 h2
    · exact hn1 h2
  · rw [hreq, dkeys_add_to_req_params] at h
    exact hn2 h

/-- C5 (witness): `foo='bar'` supplied to a `TickTrades` construction does not
appear in the resolved query. -/
theorem C5_unknown_kwarg_dropped_witness :
    "foo" ∉ dkeys (((query_read id (okState (product_init tickTradesDesc
      tickTradesDesc.default_params "cbse" "btc-usd" "spot" none
      [("foo", "bar")]).1)).1).getD []) :=
  C5_unknown_kwarg_dropped tickTradesDesc (by decide) tickTradesDesc.default_params
    "cbse" "btc-usd" "spot" none [("foo", "bar")] "foo"
    (okState (product_init tickTradesDesc tickTradesDesc.default_params "cbse" "btc-usd"
      "spot" none [("foo", "bar")]).1)
    id
    (((query_read id (okState (product_init tickTradesDesc tickTradesDesc.default_params
      "cbse" "btc-usd" "spot" none [("foo", "bar")]).1)).1).getD [])
    (by decide) (by decide) (by decide) (by decide) (by decide)

/-- C7: reading the optional-parameter mapping applies the timestamp
normalization on every read, exactly to the `start_time` and `end_time`
entries: the returned mapping carries the converted values under those two keys
and the unchanged value under every other key. -/
theorem C7_timestamp_normalizer (conv : String → String) (s : DataState) (k : String) :
    (params_read conv s).1 = _format_param_timestamps conv s._params ∧
    dlookup ((params_read conv s).1) k =
      (if k = "start_time" ∨ k = "end_time" then (dlookup s._params k).map conv
       else dlookup s._params k) :=
  ⟨rfl, dlookup_format_param_timestamps conv s._params k⟩

/-- C8: the resolved query is the union of the (timestamp-normalized) optional
mapping and the required mapping, recomputed on every access: lookups in the
query fall through the optional part into the required part, an update of an
optional value is reflected (normalized for time keys) by the next read, and an
update of a required value not shadowed by an optional key is also reflected. -/
theorem C8_query_union_recomputed (conv : String → String) (s : DataState)
    (k : String) (v : String) :
    ((query_read conv s).1 =
      dunion (_format_param_timestamps conv s._params) s.req_params) ∧
    (∀ q, (query_read conv s).1 = some q → ∀ k2,
      dlookup q k2 = ((dlookup (_format_param_timestamps conv s._params) k2).or
        (dlookup s.req_params k2))) ∧
    (∀ q, (query_read conv { s with _params := dset s._params k v }).1 = some q →
      dlookup q k = if k = "start_time" ∨ k = "end_time" then some (conv v) else some v) ∧
    (k ∉ dkeys s._params → ∀ q,
      (query_read conv { s with req_params := dset s.req_params k v }).1 = some q →
      dlookup q k = some v) := by
  refine ⟨rfl, ?_, ?_, ?_⟩
  · intro q hq k2
    rw [dunion_eq_some _ _ _ hq, dlookup_append]
    rfl
  · intro q hq
    rw [dunion_eq_some _ _ _ hq, dlookup_append]
    show (dlookup (_format_param_timestamps conv (dset s._params k v)) k).or
        (dlookup s.req_params k) =
      if k = "start_time" ∨ k = "end_time" then some (conv v) else some v
    by_cases ht : k = "start_time" ∨ k = "end_time"
    · rw [if_pos ht, dlookup_format_param_timestamps, if_pos ht, dlookup_dset, if_pos rfl]
      rfl
    · rw [if_neg ht, dlookup_format_param_timestamps, if_neg ht, dlookup_dset, if_pos rfl]
      rfl
  · intro hk q hq
    rw [dunion_eq_some _ _ _ hq, dlookup_append]
    show (dlookup (_format_param_timestamps conv s._params) k).or
        (dlookup (dset s.req_params k v) k) = some v
    have hnone : dlookup (_format_param_timestamps conv s._params) k = none := by
      rw [dlookup_eq_none_iff_not_mem, dkeys_format_param_timestamps]
      exact hk
    rw [hnone, dlookup_dset, if_pos rfl]
    rfl

/-- C8 (witness): updating `start_time` in the optional mapping is reflected,
normalized, in the next query read; updating `exchange` in the required mapping
is reflected as well. -/
theorem C8_query_union_recomputed_witness :
    dlookup [("page_size", "100"), ("start_time", "2020-08-06Z"), ("exchange", "cbse")]
      "start_time" = some "2020-08-06Z" ∧
    dlookup [("page_size", "100"), ("exchange", "okex")] "exchange" = some "okex" := by
  constructor
  · exact (C8_query_union_recomputed (fun t => t ++ "Z")
      { endpoint := "", _params := [("page_size", "100")],
        req_params := [("exchange", "cbse")], parameter_space := [], url := "" }
      "start_time" "2020-08-06").2.2.1
      [("page_size", "100"), ("start_time", "2020-08-06Z"), ("exchange", "cbse")]
      (by decide)
  · exact (C8_query_union_recomputed (fun t => t ++ "Z")
      { endpoint := "", _params := [("page_size", "100")],
        req_params := [("exchange", "cbse")], parameter_space := [], url := "" }
      "exchange" "okex").2.2.2 (by decide)
      [("page_size", "100"), ("exchange", "okex")] (by decide)

/-- C10: reading the optional-parameter mapping (via `params` or `query`)
mutates it in place: after a read, the stored `start_time`/`end_time` values
are replaced by their conversion, so whenever the conversion changes the value
the originally supplied expression is no longer in the instance state. -/
theorem C10_read_mutates_stored_params (conv : String → String) (s : DataState)
    (v w : String) :
    (dlookup s._params "start_time" = some v →
      dlookup ((params_read conv s).2)._params "start_time" = some (conv v) ∧
      dlookup ((query_read conv s).2)._params "start_time" = some (conv v) ∧
      (conv v ≠ v →
        dlookup ((params_read conv s).2)._params "start_time" ≠ some v)) ∧
    (dlookup s._params "end_time" = some w →
      dlookup ((params_read conv s).2)._params "end_time" = some (conv w)) := by
  have hst : dlookup ((params_read conv s).2)._params "start_time" =
      (dlookup s._params "start_time").map conv := by
    have := dlookup_format_param_timestamps conv s._params "start_time"
    simpa using this
  have het : dlookup ((params_read conv s).2)._params "end_time" =
      (dlookup s._params "end_time").map conv := by
    have := dlookup_format_param_timestamps conv s._params "end_time"
    simpa using this
  constructor
  · intro hv
    have hq : dlookup ((query_read conv s).2)._params "start_time" =
        (dlookup s._params "start_time").map conv := hst
    refine ⟨by rw [hst, hv]; rfl, by rw [hq, hv]; rfl, ?_⟩
    intro hne heq
    rw [hst, hv] at heq
    exact hne (Option.some.inj heq)
  · intro hw
    rw [het, hw]
    rfl

/-- C10 (witness): a concrete state holding `start_time = 2020-08-06` and
`end_time = 2020-08-07`; after one read through a conversion appending a time
suffix, the stored values are the converted ones and the original `start_time`
value is gone. -/
theorem C10_read_mutates_stored_params_witness :
    dlookup ((params_read (fun t => t ++ "T00:00:00.000Z")
      { endpoint := "", _params := [("start_time", "2020-08-06"), ("end_time", "2020-08-07")],
        req_params := [], parameter_space := [], url := "" }).2)._params "start_time" =
      some "2020-08-06T00:00:00.000Z" ∧
    dlookup ((params_read (fun t => t ++ "T00:00:00.000Z")
      { endpoint := "", _params := [("start_time", "2020-08-06"), ("end_time", "2020-08-07")],
        req_params := [], parameter_space := [], url := "" }).2)._params "start_time" ≠
      some "2020-08-06" ∧
    dlookup ((params_read (fun t => t ++ "T00:00:00.000Z")
      { endpoint := "", _params := [("start_time", "2020-08-06"), ("end_time", "2020-08-07")],
        req_params := [], parameter_space := [], url := "" }).2)._params "end_time" =
      some "2020-08-07T00:00:00.000Z" := by
  have h := C10_read_mutates_stored_params (fun t => t ++ "T00:00:00.000Z")
    { endpoint := "", _params := [("start_time", "2020-08-06"), ("end_time", "2020-08-07")],
      req_params := [], parameter_space := [], url := "" }
    "2020-08-06" "2020-08-07"
  have h1 := h.1 (by decide)
  exact ⟨h1.1, h1.2.2 (by decide), h.2 (by decide)⟩

end Kaiko

